import Mathlib

/-!
Verification of the `multi_pingpong` ping monitor (src/multi_pingpong.py).

We shallowly embed the rolling-statistics engine, the threshold alerts, the
round fan-out/remapping, the argument filtering and the resolver as pure Lean
functions, and prove the specified properties about them.

Conventions:
* Python floats carrying latencies are modelled as `ℚ`.
* A probe outcome is `Option ℚ`: `some t` is a success with latency `t` ms,
  `none` is a failure (Python `None`).
* A Python `dict` built by repeated insertion is modelled as an ordered
  association list with insert-or-update semantics (`dictInsert`), matching
  the insertion-order guarantee of Python dicts.
-/

namespace MultiPingpong

/-- `MAX_HISTORY = 50` — number of pings kept for statistics. -/
def MAX_HISTORY : ℕ := 50

/-- `LOSS_THRESHOLD = 20.0` — alert if packet loss exceeds 20%. -/
def LOSS_THRESHOLD : ℚ := 20

/-- `LATENCY_THRESHOLD = 200.0` — alert if ping time exceeds 200 ms. -/
def LATENCY_THRESHOLD : ℚ := 200

/-- One target's history entry of the `histories` dict built in `main`
    (line 355): the bounded ping window plus lifetime packet counters. -/
structure History where
  pings : List (Option ℚ)    -- window, oldest first; `deque(maxlen=MAX_HISTORY)`
  total_packets : ℕ
  success_packets : ℕ
  failed_packets : ℕ
  deriving Repr, DecidableEq

/-- The fresh history created for each target at startup (line 355). -/
def initHistory : History :=
  { pings := [], total_packets := 0, success_packets := 0, failed_packets := 0 }

/-- `deque(maxlen=cap).append x`: append on the right, dropping from the left
    whenever the length exceeds `cap`. -/
def dequeAppend (cap : ℕ) (xs : List α) (x : α) : List α :=
  let ys := xs ++ [x]
  if cap < ys.length then ys.drop (ys.length - cap) else ys

/-- The per-target body of the `record` loop in `main` (lines 366–372):
    append the round's outcome to the window and bump the lifetime counters. -/
def recordOutcome (h : History) (result : Option ℚ) : History :=
  { pings := dequeAppend MAX_HISTORY h.pings result
    total_packets := h.total_packets + 1
    success_packets := h.success_packets + (if result.isSome then 1 else 0)
    failed_packets := h.failed_packets + (if result.isSome then 0 else 1) }

/-- A whole run of records for one target, starting from the fresh history. -/
def recordAll (results : List (Option ℚ)) : History :=
  results.foldl recordOutcome initHistory

/-- The statistics record returned by `calculate_statistics` (lines 196–214). -/
structure Stats where
  min : Option ℚ
  max : Option ℚ
  avg : Option ℚ
  median : Option ℚ
  loss : ℚ
  deriving Repr, DecidableEq

/-- Insert into an ascending list, keeping it ascending. -/
def insertAsc (x : ℚ) : List ℚ → List ℚ
  | [] => [x]
  | y :: ys => if x ≤ y then x :: y :: ys else y :: insertAsc x ys

/-- Ascending sort (insertion sort).  On rationals this agrees with Python's
    `sorted`, since equal elements are indistinguishable. -/
def sortAsc : List ℚ → List ℚ
  | [] => []
  | x :: xs => insertAsc x (sortAsc xs)

/-- `statistics.median`: sort, take the middle element (odd length) or the
    mean of the two middle elements (even length).  Python raises on an empty
    list; the program only calls it on nonempty data, and we return 0 there. -/
def pyMedian (xs : List ℚ) : ℚ :=
  let s := sortAsc xs
  let n := s.length
  if n % 2 = 1 then s.getD (n / 2) 0
  else (s.getD (n / 2 - 1) 0 + s.getD (n / 2) 0) / 2

/-- `min(v :: vs)` / `max(v :: vs)` as Python computes them on a nonempty list. -/
def pyMin (v : ℚ) (vs : List ℚ) : ℚ := vs.foldl min v

def pyMax (v : ℚ) (vs : List ℚ) : ℚ := vs.foldl max v

/-- `calculate_statistics` (lines 196–214): filter out failed pings, and if any
    succeeded compute min/max/avg/median over them and the loss fraction;
    otherwise report absent latency stats and 100% loss. -/
def calculate_statistics (history : List (Option ℚ)) : Stats :=
  let valid_pings := history.filterMap id
  let total_pings := history.length
  match valid_pings with
  | [] => { min := none, max := none, avg := none, median := none, loss := 100 }
  | v :: vs =>
      { min := some (pyMin v vs)
        max := some (pyMax v vs)
        avg := some ((v :: vs).sum / (v :: vs).length)
        median := some (pyMedian (v :: vs))
        loss := (1 - ((v :: vs).length : ℚ) / (total_pings : ℚ)) * 100 }

/-- The loss warning condition in `print_ping_results` (line 328). -/
def loss_alert (loss : ℚ) : Bool := loss > LOSS_THRESHOLD

/-- The latency warning condition in `print_ping_results` (line 330):
    the latest outcome must be a success and exceed the threshold. -/
def latency_alert (current : Option ℚ) : Bool :=
  match current with
  | some t => t > LATENCY_THRESHOLD
  | none => false

/-- Number of failed entries in a window. -/
def countFailures (history : List (Option ℚ)) : ℕ :=
  (history.filter (fun x => x.isNone)).length

/-! ### Rounds, argument parsing, resolver and probe -/

/-- Python `dict` insertion: update the entry in place when the key is already
    present, otherwise append at the end (insertion order is preserved). -/
def dictInsert (d : List (String × α)) (k : String) (v : α) : List (String × α) :=
  if d.any (fun p => p.1 = k) then
    d.map (fun p => if p.1 = k then (k, v) else p)
  else d ++ [(k, v)]

/-- Build a Python `dict` from a list of key/value pairs by repeated
    insertion, as a dict comprehension does. -/
def dictOfPairs (l : List (String × α)) : List (String × α) :=
  l.foldl (fun d p => dictInsert d p.1 p.2) []

/-- `ping_all_ips` (lines 182–194): fan out one probe per address and zip the
    gathered outcomes back into a dict keyed by address.  The network is
    external, so the gathered outcomes are a parameter `results`, listed in
    the same order as `ips`. -/
def ping_all_ips (ips : List String) (results : List (Option ℚ)) :
    List (String × Option ℚ) :=
  dictOfPairs (ips.zip results)

/-- Line 365 of `main`: remap the round's dict onto display names by position,
    `{ip_mappings[i][0]: result for i, result in enumerate(ping_data.values())}`.
    Python indexing never goes out of bounds here because the dict has at most
    `ip_mappings.length` entries; `getD` with a dummy default models it. -/
def ping_data_mapped (ip_mappings : List (String × String))
    (ping_data : List (String × Option ℚ)) : List (String × Option ℚ) :=
  dictOfPairs ((ping_data.map Prod.snd).enum.map
    (fun p => ((ip_mappings.getD p.1 ("", "")).1, p.2)))

/-- `socket.gethostbyname` on top of a resolution oracle listing a name's
    addresses in order: the first resolved address, or failure (`gaierror`)
    when the list is empty. -/
def gethostbyname (resolveAddrs : String → List String) (s : String) :
    Option String :=
  (resolveAddrs s).head?

/-- `validate_ip` (lines 70–87): a literal IPv4/IPv6 address is returned
    unchanged; anything else goes through name resolution.  `isLit` is the
    oracle for `ipaddress.ip_address` succeeding. -/
def validate_ip (isLit : String → Bool) (resolveAddrs : String → List String)
    (s : String) : Option String :=
  if isLit s then some s else gethostbyname resolveAddrs s

/-- The mapping-construction loop of `parse_arguments` (lines 140–147): keep
    `(original, resolved)` for every input the validator accepts, skip the
    rest. -/
def build_ip_mappings (validate : String → Option String)
    (input_ips : List String) : List (String × String) :=
  input_ips.filterMap (fun ip => (validate ip).map (fun r => (ip, r)))

/-- `parse_arguments` (lines 137–151), reduced to its target handling:
    `none` models `parser.error` (a fatal usage error), raised when no inputs
    were given or when no input validated. -/
def parse_arguments (validate : String → Option String)
    (input_ips : List String) : Option (List (String × String)) :=
  if input_ips = [] then none
  else
    let m := build_ip_mappings validate input_ips
    if m = [] then none else some m

/-- What can happen to one probe subprocess, seen from `ping_ip`'s `try`
    block: the subprocess finished within the wait bound and produced output,
    the overall wait timed out (`asyncio.TimeoutError`), or some other
    exception was raised. -/
inductive ProbeEvent where
  | reply (output : String)
  | timeoutExpired
  | transportError (msg : String)
  deriving Repr, DecidableEq

/-- The errors `ping_ip`'s handlers catch. -/
inductive PingError where
  | timeout
  | transport (msg : String)
  deriving Repr, DecidableEq

/-- The body of `ping_ip`'s `try` block (lines 166–174): on a reply, parse the
    `time=`/`time<` field out of the output (`parseTime` is the regex oracle,
    returning `none` when there is no match); otherwise the corresponding
    exception propagates to the handlers. -/
def ping_ip_attempt (parseTime : String → Option ℚ) :
    ProbeEvent → Except PingError (Option ℚ)
  | .reply out => .ok (parseTime out)
  | .timeoutExpired => .error .timeout
  | .transportError m => .error (.transport m)

/-- `ping_ip` (lines 153–180): both exception handlers swallow the error and
    return `None`, so every event yields an outcome. -/
def ping_ip (parseTime : String → Option ℚ) (ev : ProbeEvent) : Option ℚ :=
  match ping_ip_attempt parseTime ev with
  | .ok r => r
  | .error _ => none

/-- One round's outcomes: one `ping_ip` evaluation per target's event. -/
def round_outcomes (parseTime : String → Option ℚ) (events : List ProbeEvent) :
    List (Option ℚ) :=
  events.map (ping_ip parseTime)

/-- Python `int()` on a rational: truncation toward zero. -/
def pyInt (q : ℚ) : ℤ :=
  if 0 ≤ q then ⌊q⌋ else ⌈q⌉

/-- The pieces of the command string built on line 165,
    `ping {param} 1 {timeout_param} {int(timeout)} {ip}`. -/
structure PingCmd where
  count : ℕ
  timeout_field : ℤ
  addr : String
  deriving Repr, DecidableEq

/-- The command `ping_ip` hands to the shell: one echo request, with the
    configured timeout truncated by `int()`. -/
def build_ping_cmd (timeout : ℚ) (ip : String) : PingCmd :=
  { count := 1, timeout_field := pyInt timeout, addr := ip }

/-- The overall wait bound passed to `asyncio.wait_for` on line 169:
    the untruncated timeout plus one second. -/
def ping_wait_bound (timeout : ℚ) : ℚ := timeout + 1

/-! ### Helper lemmas -/

theorem recordOutcome_counter (h : History) (r : Option ℚ)
    (hh : h.total_packets = h.success_packets + h.failed_packets) :
    (recordOutcome h r).total_packets =
      (recordOutcome h r).success_packets + (recordOutcome h r).failed_packets := by
  cases r <;> simp [recordOutcome, hh] <;> omega

theorem foldl_recordOutcome_counter (results : List (Option ℚ)) :
    ∀ h : History, h.total_packets = h.success_packets + h.failed_packets →
      (results.foldl recordOutcome h).total_packets =
        (results.foldl recordOutcome h).success_packets +
          (results.foldl recordOutcome h).failed_packets := by
  induction results with
  | nil => intro h hh; simpa using hh
  | cons r rs ih =>
      intro h hh
      simpa using ih (recordOutcome h r) (recordOutcome_counter h r hh)

theorem dequeAppend_length_le (cap : ℕ) (xs : List α) (x : α)
    (hx : xs.length ≤ cap) : (dequeAppend cap xs x).length ≤ cap := by
  simp only [dequeAppend]
  split
  · simp only [List.length_drop]
    omega
  · next hc =>
      simp only [not_lt, List.length_append, List.length_singleton] at hc ⊢
      omega

theorem foldl_recordOutcome_window (results : List (Option ℚ)) :
    ∀ h : History, h.pings.length ≤ MAX_HISTORY →
      (results.foldl recordOutcome h).pings.length ≤ MAX_HISTORY := by
  induction results with
  | nil => intro h hh; simpa using hh
  | cons r rs ih =>
      intro h hh
      exact ih (recordOutcome h r) (dequeAppend_length_le MAX_HISTORY h.pings r hh)

theorem valid_add_failures (history : List (Option ℚ)) :
    (history.filterMap id).length + countFailures history = history.length := by
  induction history with
  | nil => simp [countFailures]
  | cons x xs ih =>
      cases x <;> simp [countFailures, List.filter] at ih ⊢ <;> omega

theorem dictInsert_of_not_mem (d : List (String × α)) (k : String) (v : α)
    (hk : k ∉ d.map Prod.fst) : dictInsert d k v = d ++ [(k, v)] := by
  have hfalse : ¬ (d.any (fun p => p.1 = k) = true) := by
    simp only [List.any_eq_true, decide_eq_true_eq, not_exists]
    intro p hpk
    rcases hpk with ⟨hp, hpk⟩
    exact hk (hpk ▸ List.mem_map_of_mem Prod.fst hp)
  simp [dictInsert, hfalse]

theorem foldl_dictInsert_nodup (l : List (String × α)) :
    ∀ acc : List (String × α), ((acc ++ l).map Prod.fst).Nodup →
      l.foldl (fun d p => dictInsert d p.1 p.2) acc = acc ++ l := by
  induction l with
  | nil => intro acc _; simp
  | cons p l ih =>
      intro acc h
      have hp : p.1 ∉ acc.map Prod.fst := by
        rw [List.map_append, List.nodup_append] at h
        intro hmem
        exact h.2.2 hmem (by simp)
      rw [List.foldl_cons, dictInsert_of_not_mem acc p.1 p.2 hp]
      have hstep := ih (acc ++ [p]) (by simpa using h)
      simpa using hstep

theorem dictOfPairs_of_nodup (l : List (String × α))
    (h : (l.map Prod.fst).Nodup) : dictOfPairs l = l := by
  simpa using foldl_dictInsert_nodup l [] (by simpa using h)

theorem map_getD_range (m : List α) (d : α) :
    (List.range m.length).map (fun i => m.getD i d) = m := by
  induction m with
  | nil => simp
  | cons a m ih =>
      rw [List.length_cons, List.range_succ_eq_map, List.map_cons, List.map_map]
      simp only [Function.comp_def, List.getD_cons_zero, List.getD_cons_succ]
      rw [ih]

theorem build_mem_validate (validate : String → Option String)
    (inputs : List String) (p : String × String)
    (hp : p ∈ build_ip_mappings validate inputs) :
    validate p.1 = some p.2 ∧ p.1 ∈ inputs := by
  unfold build_ip_mappings at hp
  simp only [List.mem_filterMap, Option.map_eq_some'] at hp
  obtain ⟨ip, hip, r, hr, hpr⟩ := hp
  cases hpr
  exact ⟨hr, hip⟩

theorem build_fst_nodup (validate : String → Option String)
    (inputs : List String)
    (h : ((build_ip_mappings validate inputs).map Prod.snd).Nodup) :
    ((build_ip_mappings validate inputs).map Prod.fst).Nodup := by
  have hmap : (build_ip_mappings validate inputs).map Prod.snd =
      ((build_ip_mappings validate inputs).map Prod.fst).map
        (fun s => (validate s).getD "") := by
    rw [List.map_map]
    apply List.map_congr_left
    intro p hp
    have hv := (build_mem_validate validate inputs p hp).1
    simp [Function.comp, hv]
  rw [hmap] at h
  exact h.of_map _

/-! ### Claim theorems -/

/-- C1: for every target history, after every record of a round outcome the
    lifetime counters satisfy `total = success + failed`, and `total` is never
    decremented by any record operation. -/
theorem record_total_eq_success_add_failed :
    (∀ results : List (Option ℚ),
      (recordAll results).total_packets =
        (recordAll results).success_packets + (recordAll results).failed_packets) ∧
    (∀ (h : History) (r : Option ℚ),
      h.total_packets ≤ (recordOutcome h r).total_packets) := by
  constructor
  · intro results
    exact foldl_recordOutcome_counter results initHistory (by simp [initHistory])
  · intro h r
    simp [recordOutcome]

/-- C2: the window never holds more than `MAX_HISTORY = 50` outcomes, and a
    record appended to a window already at capacity evicts exactly the oldest
    outcome (FIFO). -/
theorem window_bounded_and_fifo :
    (∀ results : List (Option ℚ), (recordAll results).pings.length ≤ MAX_HISTORY) ∧
    (∀ (h : History) (r : Option ℚ), h.pings.length = MAX_HISTORY →
      (recordOutcome h r).pings = h.pings.tail ++ [r]) := by
  constructor
  · intro results
    exact foldl_recordOutcome_window results initHistory (by simp [initHistory])
  · intro h r hlen
    show dequeAppend MAX_HISTORY h.pings r = h.pings.tail ++ [r]
    simp only [dequeAppend]
    have hc : MAX_HISTORY < (h.pings ++ [r]).length := by
      simp [hlen]
    rw [if_pos hc]
    have h1 : (h.pings ++ [r]).length - MAX_HISTORY = 1 := by
      simp [hlen]
    have h2 : 1 ≤ h.pings.length := by
      simp [hlen, MAX_HISTORY]
    rw [h1, List.drop_append_of_le_length h2, List.drop_one]

/-- Witness for C2: recording into a full window of 50 failures keeps exactly
    the 49 younger entries plus the new outcome. -/
theorem window_bounded_and_fifo_witness :
    (recordOutcome
        { pings := List.replicate MAX_HISTORY none, total_packets := 50,
          success_packets := 0, failed_packets := 50 } (some 5)).pings =
      (List.replicate MAX_HISTORY (none : Option ℚ)).tail ++ [some 5] :=
  window_bounded_and_fifo.2
    { pings := List.replicate MAX_HISTORY none, total_packets := 50,
      success_packets := 0, failed_packets := 50 } (some 5) (by simp)

/-- C3: statistics are computed over the non-failed entries only; the loss
    percentage of a nonempty window is the fraction of failed entries times
    100, and the window `[10ms, 20ms, 30ms, Failure]` yields loss 25%,
    min 10, max 30, avg 20, median 20. -/
theorem statistics_of_window :
    (∀ history : List (Option ℚ), history ≠ [] →
      (calculate_statistics history).loss =
        (countFailures history : ℚ) / (history.length : ℚ) * 100) ∧
    calculate_statistics [some 10, some 20, some 30, none] =
      { min := some 10, max := some 30, avg := some 20, median := some 20,
        loss := 25 } := by
  constructor
  · intro history hne
    have hlen : history.length ≠ 0 := by
      simpa [List.length_eq_zero] using hne
    have hsum := valid_add_failures history
    rcases hv : history.filterMap id with _ | ⟨v, vs⟩
    · have hfail : countFailures history = history.length := by
        rw [hv] at hsum; simpa using hsum
      have : calculate_statistics history =
          { min := none, max := none, avg := none, median := none, loss := 100 } := by
        simp [calculate_statistics, hv]
      rw [this, hfail]
      field_simp
    · have hvalid : (v :: vs).length + countFailures history = history.length := by
        rw [hv] at hsum; exact hsum
      have hloss : (calculate_statistics history).loss =
          (1 - ((v :: vs).length : ℚ) / (history.length : ℚ)) * 100 := by
        simp [calculate_statistics, hv]
      rw [hloss]
      have hq : ((v :: vs).length : ℚ) + (countFailures history : ℚ) =
          (history.length : ℚ) := by
        exact_mod_cast hvalid
      have hlq : (history.length : ℚ) ≠ 0 := by
        exact_mod_cast hlen
      have hk : ((v :: vs).length : ℚ) =
          (history.length : ℚ) - (countFailures history : ℚ) := by
        linarith [hq]
      rw [hk]
      field_simp
  · norm_num [calculate_statistics, pyMin, pyMax, pyMedian, sortAsc, insertAsc,
      List.filterMap]

/-- Witness for C3: the loss formula evaluated on the concrete window
    `[10ms, Failure]` gives 50%. -/
theorem statistics_of_window_witness :
    (calculate_statistics [some 10, none]).loss =
      (countFailures [some 10, none] : ℚ) /
        ((List.length [some (10 : ℚ), none] : ℕ) : ℚ) * 100 :=
  statistics_of_window.1 [some 10, none] (by simp)

/-- C4: a window with zero successful entries yields absent min/max/avg/median
    and a loss of exactly 100%. -/
theorem snapshot_all_failed (history : List (Option ℚ))
    (hv : history.filterMap id = []) :
    calculate_statistics history =
      { min := none, max := none, avg := none, median := none, loss := 100 } := by
  simp [calculate_statistics, hv]

/-- Witness for C4: the all-failed window `[Failure, Failure]`. -/
theorem snapshot_all_failed_witness :
    calculate_statistics [none, none] =
      { min := none, max := none, avg := none, median := none, loss := 100 } :=
  snapshot_all_failed [none, none] (by simp)

/-- C5: the loss alert fires iff `loss_percent > 20.0` and the latency alert
    fires iff the latest round succeeded with latency `> 200.0` ms; the exact
    boundary values 20.0 and 200.0 do not fire. -/
theorem alert_thresholds_strict :
    (∀ loss : ℚ, loss_alert loss = true ↔ LOSS_THRESHOLD < loss) ∧
    (∀ current : Option ℚ, latency_alert current = true ↔
      ∃ t : ℚ, current = some t ∧ LATENCY_THRESHOLD < t) ∧
    loss_alert LOSS_THRESHOLD = false ∧
    latency_alert (some LATENCY_THRESHOLD) = false := by
  refine ⟨?_, ?_, ?_, ?_⟩
  · intro loss
    simp [loss_alert]
  · intro current
    cases current <;> simp [latency_alert]
  · simp [loss_alert]
  · simp [latency_alert]

/-- C6 counterexample: two active targets whose names resolve to the same
    address.  `build_ip_mappings` constructs both targets, but the round
    result delivered to the aggregator (`ping_data_mapped` of the
    `ping_all_ips` dict) only carries target `"a"` — target `"b"` is missing,
    so the round is partial, contradicting the claim. -/
theorem round_result_drops_target :
    build_ip_mappings (fun _ => some "x") ["a", "b"] = [("a", "x"), ("b", "x")] ∧
    (ping_data_mapped (build_ip_mappings (fun _ => some "x") ["a", "b"])
        (ping_all_ips
          ((build_ip_mappings (fun _ => some "x") ["a", "b"]).map Prod.snd)
          [some 10, none])).map Prod.fst = ["a"] := by
  constructor
  · rfl
  · decide

/-- C6 (amended): when the active targets' resolved addresses are pairwise
    distinct and the round produced one outcome per target, the round result
    delivered to the aggregator contains exactly one outcome per active
    target, keyed by display name in order. -/
theorem round_result_complete (validate : String → Option String)
    (inputs : List String) (results : List (Option ℚ))
    (hnodup : ((build_ip_mappings validate inputs).map Prod.snd).Nodup)
    (hlen : results.length = (build_ip_mappings validate inputs).length) :
    ping_data_mapped (build_ip_mappings validate inputs)
        (ping_all_ips ((build_ip_mappings validate inputs).map Prod.snd)
          results) =
      ((build_ip_mappings validate inputs).map Prod.fst).zip results := by
  have hfst := build_fst_nodup validate inputs hnodup
  generalize hm : build_ip_mappings validate inputs = m at *
  have hlen' : (m.map Prod.snd).length ≤ results.length := by
    simp [hlen]
  have h1 : ping_all_ips (m.map Prod.snd) results =
      (m.map Prod.snd).zip results := by
    unfold ping_all_ips
    apply dictOfPairs_of_nodup
    rw [List.map_fst_zip _ _ hlen']
    exact hnodup
  rw [h1]
  unfold ping_data_mapped
  have h2 : ((m.map Prod.snd).zip results).map Prod.snd = results :=
    List.map_snd_zip _ _ (by simp [hlen])
  rw [h2, List.enum_eq_zip_range]
  have h3 : ((List.range results.length).zip results).map
      (fun p => ((m.getD p.1 ("", "")).1, p.2)) =
      ((List.range results.length).map (fun i => (m.getD i ("", "")).1)).zip
        results := by
    have := List.zip_map (fun i => (m.getD i ("", "")).1) (id : Option ℚ → Option ℚ)
      (List.range results.length) results
    simpa [Prod.map] using this.symm
  have h4 : (List.range results.length).map (fun i => (m.getD i ("", "")).1) =
      m.map Prod.fst := by
    rw [hlen]
    have hg := map_getD_range m ("", "")
    calc (List.range m.length).map (fun i => (m.getD i ("", "")).1)
        = ((List.range m.length).map (fun i => m.getD i ("", ""))).map
            Prod.fst := by
          rw [List.map_map]
          rfl
      _ = m.map Prod.fst := by rw [hg]
  rw [h3, h4]
  apply dictOfPairs_of_nodup
  rw [List.map_fst_zip _ _ (by simp [hlen])]
  exact hfst

/-- Witness for the amended C6: two targets with distinct resolved addresses
    get a complete round result. -/
theorem round_result_complete_witness :
    ping_data_mapped (build_ip_mappings some ["a", "b"])
        (ping_all_ips ((build_ip_mappings some ["a", "b"]).map Prod.snd)
          [some 10, none]) =
      ((build_ip_mappings some ["a", "b"]).map Prod.fst).zip [some 10, none] :=
  round_result_complete some ["a", "b"] [some 10, none] (by decide) (by decide)

/-- C7 counterexample: the duplicated input `"8.8.8.8"` (a literal address,
    so validation succeeds) is not filtered — the constructed target list
    contains a duplicate entry. -/
theorem duplicate_inputs_not_filtered :
    ¬ (build_ip_mappings (validate_ip (fun _ => true) (fun _ => []))
        ["8.8.8.8", "8.8.8.8"]).Nodup := by
  decide

/-- C7 (amended): malformed inputs are filtered out before target
    construction (every constructed mapping passed validation and came from
    an input), zero valid targets is a fatal startup error, and a successful
    parse returns exactly the constructed nonempty mapping list — but
    duplicate inputs are not filtered. -/
theorem malformed_filtered_zero_fatal :
    (∀ (validate : String → Option String) (inputs : List String)
        (p : String × String), p ∈ build_ip_mappings validate inputs →
      validate p.1 = some p.2 ∧ p.1 ∈ inputs) ∧
    (∀ (validate : String → Option String) (inputs : List String),
      build_ip_mappings validate inputs = [] →
        parse_arguments validate inputs = none) ∧
    (∀ (validate : String → Option String) (inputs : List String)
        (m : List (String × String)), parse_arguments validate inputs = some m →
      m = build_ip_mappings validate inputs ∧ m ≠ []) := by
  refine ⟨build_mem_validate, ?_, ?_⟩
  · intro validate inputs hempty
    unfold parse_arguments
    split
    · rfl
    · simp [hempty]
  · intro validate inputs m hm
    simp only [parse_arguments] at hm
    split at hm
    · cases hm
    · split at hm
      · cases hm
      · next hne => exact ⟨(Option.some.inj hm).symm, (Option.some.inj hm) ▸ hne⟩

/-- Witness for C7: a run whose single input fails validation is a fatal
    startup error. -/
theorem malformed_filtered_zero_fatal_witness :
    parse_arguments (fun _ => none) ["bad-host"] = none :=
  malformed_filtered_zero_fatal.2.1 (fun _ => none) ["bad-host"] rfl

/-- C8: a literal address is returned unchanged; a name that resolves is
    replaced by its first resolved address; a name that fails to resolve
    yields `none`, and such an input is excluded from the constructed target
    list. -/
theorem resolver_contract :
    (∀ (isLit : String → Bool) (res : String → List String) (s : String),
      isLit s = true → validate_ip isLit res s = some s) ∧
    (∀ (isLit : String → Bool) (res : String → List String) (s a : String)
        (rest : List String), isLit s = false → res s = a :: rest →
      validate_ip isLit res s = some a) ∧
    (∀ (isLit : String → Bool) (res : String → List String) (s : String),
      isLit s = false → res s = [] →
        validate_ip isLit res s = none ∧
        build_ip_mappings (validate_ip isLit res) [s] = []) := by
  refine ⟨?_, ?_, ?_⟩
  · intro isLit res s h
    simp [validate_ip, h]
  · intro isLit res s a rest h hres
    simp [validate_ip, gethostbyname, h, hres]
  · intro isLit res s h hres
    constructor
    · simp [validate_ip, gethostbyname, h, hres]
    · simp [build_ip_mappings, validate_ip, gethostbyname, h, hres]

/-- Witness for C8: a literal address is passed through unchanged. -/
theorem resolver_contract_witness :
    validate_ip (fun _ => true) (fun _ => []) "192.168.0.1" =
      some "192.168.0.1" :=
  resolver_contract.1 (fun _ => true) (fun _ => []) "192.168.0.1" rfl

/-- C9: every probe error (timeout or transport) is turned into a `Failure`
    outcome (`none`) instead of propagating, and a round maps every event to
    an outcome — one outcome per probed target, never an aborted round. -/
theorem probe_failures_are_data :
    (∀ (parseTime : String → Option ℚ) (ev : ProbeEvent) (e : PingError),
      ping_ip_attempt parseTime ev = .error e → ping_ip parseTime ev = none) ∧
    (∀ (parseTime : String → Option ℚ) (events : List ProbeEvent),
      (round_outcomes parseTime events).length = events.length) := by
  constructor
  · intro parseTime ev e herr
    unfold ping_ip
    rw [herr]
  · intro parseTime events
    simp [round_outcomes]

/-- Witness for C9: a timed-out probe yields the `Failure` outcome. -/
theorem probe_failures_are_data_witness :
    ping_ip (fun _ => none) ProbeEvent.timeoutExpired = none :=
  probe_failures_are_data.1 (fun _ => none) ProbeEvent.timeoutExpired
    PingError.timeout rfl

/-- C10: the timeout handed to the system ping utility is `int(timeout)`,
    which for nonnegative timeouts is the floor (fraction dropped, and a
    timeout below one second becomes 0), while the overall wait bound is the
    untruncated timeout plus a one-second grace margin. -/
theorem probe_timeout_truncation :
    (∀ (t : ℚ) (ip : String), 0 ≤ t →
      (build_ping_cmd t ip).timeout_field = ⌊t⌋) ∧
    (∀ (t : ℚ) (ip : String), 0 ≤ t → t < 1 →
      (build_ping_cmd t ip).timeout_field = 0) ∧
    (∀ t : ℚ, ping_wait_bound t = t + 1) := by
  refine ⟨?_, ?_, fun _ => rfl⟩
  · intro t ip ht
    simp [build_ping_cmd, pyInt, ht]
  · intro t ip ht0 ht1
    have : ⌊t⌋ = 0 := by
      rw [Int.floor_eq_zero_iff]
      exact ⟨ht0, ht1⟩
    simp [build_ping_cmd, pyInt, ht0, this]

/-- Witness for C10: a 1.5-second timeout is handed to the utility as 1,
    and the wait bound stays 2.5 seconds. -/
theorem probe_timeout_truncation_witness :
    (build_ping_cmd (3 / 2) "8.8.8.8").timeout_field = ⌊(3 / 2 : ℚ)⌋ :=
  probe_timeout_truncation.1 (3 / 2) "8.8.8.8" (by norm_num)

end MultiPingpong
